import Mathlib

/-!
Verification of the observer-pattern repository (two variants: reference
semantics and value semantics) against its specification.

Observer handles (C++ `Observer*` pointers, keys of `std::set<Observer*>`)
are modelled as natural-number identities; the `std::set` becomes a list
of identities kept in ascending key order by an ordered insert, exactly
the behaviour of the C++ ordered unique container, and the notification
loop iterates over that list in stored (ascending) order.  The subject
state and every observer's cached `int32` live in one record, with
notification delivery a fold over the iteration list, exactly as
`Subject::SendNotification` loops over `m_Observers`.  The `int32` fields
are modelled as `Int`: the code only stores and reads them, it never does
arithmetic, so no overflow reduction is needed.
-/

namespace ObserverPattern

/-- `std::set<Key>::insert` on the ordered key list: walk to the ordered
position; if the key is already present do nothing, otherwise place it
there.  On a sorted duplicate-free list this is exactly the C++ ordered
unique container's insert. -/
def setInsert (x : ℕ) : List ℕ → List ℕ
  | [] => [x]
  | y :: ys =>
    if x < y then x :: y :: ys
    else if x = y then y :: ys
    else y :: setInsert x ys

/-- `std::set<Key>::erase(key)`: removes the key if present (at most one
occurrence exists in a set). -/
def setErase (l : List ℕ) (x : ℕ) : List ℕ :=
  l.erase x

/-- The notification tag enumeration `SubjectSystemTag` (identical in both
variants): distinguishes which field of `SubjectSystem` changed. -/
inductive SubjectSystemTag
  | ValueA
  | ValueB
deriving DecidableEq

/-- One call made by client code against a subject system: the four
mutating operations of the public API. -/
inductive Op
  | attachObserver (observer : ℕ)
  | detachObserver (observer : ℕ)
  | setValueA (value : Int)
  | setValueB (value : Int)
deriving DecidableEq

namespace ReferenceSemantics

/-- The dynamic type of a registered observer in the reference-semantics
variant: each concrete observer class is `SubjectObserverA` (filters on
`ValueA`) or `SubjectObserverB` (filters on `ValueB`). -/
inductive ObserverKind
  | A
  | B
deriving DecidableEq

/-- The whole reference-semantics system state: the concrete
`SubjectSystem` (fields `m_ValueA`, `m_ValueB` plus the inherited
registered-observer set `m_Observers`, as the set's ordered key list)
together with every observer object's state.  `kinds id` is the dynamic
type of the observer object with identity `id` (fixed at construction,
never mutated); `caches id` is that observer's `m_Value` member. -/
structure System where
  m_ValueA : Int
  m_ValueB : Int
  m_Observers : List ℕ
  kinds : ℕ → ObserverKind
  caches : ℕ → Int

/-- `SubjectSystem::GetValueA`. -/
def GetValueA (s : System) : Int := s.m_ValueA

/-- `SubjectSystem::GetValueB`. -/
def GetValueB (s : System) : Int := s.m_ValueB

/-- `SubjectObserverA::OnNotification`: caches `subject.GetValueA()` when
the tag is `ValueA`, otherwise leaves `m_Value` unchanged.  Takes the old
`m_Value` and returns the new one. -/
def SubjectObserverA_OnNotification (subject : System) (tag : SubjectSystemTag)
    (m_Value : Int) : Int :=
  if tag = SubjectSystemTag.ValueA then GetValueA subject else m_Value

/-- `SubjectObserverB::OnNotification`: caches `subject.GetValueB()` when
the tag is `ValueB`, otherwise leaves `m_Value` unchanged. -/
def SubjectObserverB_OnNotification (subject : System) (tag : SubjectSystemTag)
    (m_Value : Int) : Int :=
  if tag = SubjectSystemTag.ValueB then GetValueB subject else m_Value

/-- Virtual dispatch of `observer->OnNotification(subject, tag)` on the
observer's dynamic type. -/
def dispatchOnNotification : ObserverKind → System → SubjectSystemTag → Int → Int
  | ObserverKind.A => SubjectObserverA_OnNotification
  | ObserverKind.B => SubjectObserverB_OnNotification

/-- One iteration of the `SendNotification` loop: the call
`observer->OnNotification(*this, tag)` for the observer with identity
`observer`, which updates only that observer's `m_Value`. -/
def notifyStep (st : System) (observer : ℕ) (tag : SubjectSystemTag) : System :=
  { st with caches := fun x =>
      if x = observer then
        dispatchOnNotification (st.kinds observer) st tag (st.caches observer)
      else st.caches x }

/-- The `SendNotification` loop body over an explicit iteration list. -/
def notifyList (st : System) (l : List ℕ) (tag : SubjectSystemTag) : System :=
  l.foldl (fun s o => notifyStep s o tag) st

/-- The sequence of observers on which `SendNotification` invokes
`OnNotification`, in iteration order of `for(Observer* observer :
m_Observers)`. -/
def SendNotificationCalls (st : System) : List ℕ :=
  st.m_Observers

/-- `Subject::SendNotification(tag)`: invokes `OnNotification` on every
registered observer, in set-iteration order. -/
def SendNotification (st : System) (tag : SubjectSystemTag) : System :=
  notifyList st (SendNotificationCalls st) tag

/-- `Subject::AttachObserver`: `m_Observers.insert(observer)`. -/
def AttachObserver (s : System) (observer : ℕ) : System :=
  { s with m_Observers := setInsert observer s.m_Observers }

/-- `Subject::DetachObserver`: `m_Observers.erase(observer)`. -/
def DetachObserver (s : System) (observer : ℕ) : System :=
  { s with m_Observers := setErase s.m_Observers observer }

/-- `SubjectSystem::SetValueA`: stores the value, then broadcasts
`SubjectSystemTag::ValueA`. -/
def SetValueA (s : System) (value : Int) : System :=
  SendNotification { s with m_ValueA := value } SubjectSystemTag.ValueA

/-- `SubjectSystem::SetValueB`: stores the value, then broadcasts
`SubjectSystemTag::ValueB`. -/
def SetValueB (s : System) (value : Int) : System :=
  SendNotification { s with m_ValueB := value } SubjectSystemTag.ValueB

/-- Run one client call. -/
def runOp (s : System) : Op → System
  | Op.attachObserver observer => AttachObserver s observer
  | Op.detachObserver observer => DetachObserver s observer
  | Op.setValueA value => SetValueA s value
  | Op.setValueB value => SetValueB s value

/-- Run a sequence of client calls, first to last. -/
def run (ops : List Op) (s : System) : System :=
  ops.foldl runOp s

/-- The observer kind that filters on a given tag. -/
def kindOfTag : SubjectSystemTag → ObserverKind
  | SubjectSystemTag.ValueA => ObserverKind.A
  | SubjectSystemTag.ValueB => ObserverKind.B

/-- The subject field a given tag announces. -/
def fieldOfTag (st : System) : SubjectSystemTag → Int
  | SubjectSystemTag.ValueA => st.m_ValueA
  | SubjectSystemTag.ValueB => st.m_ValueB

/-- A freshly constructed `SubjectSystem` and freshly constructed observer
objects: member initializers give `m_ValueA{0}`, `m_ValueB{0}`, an empty
`m_Observers` set, and `m_Value{0}` in every observer. -/
def mkSystem (kinds : ℕ → ObserverKind) : System :=
  { m_ValueA := 0, m_ValueB := 0, m_Observers := [], kinds := kinds, caches := fun _ => 0 }

/-- The observers of the unit-test scenario: `observerA` is identity `0`
(a `SubjectObserverA`), `observerB` identity `1` and `observerBB`
identity `2` (both `SubjectObserverB`). -/
def scenarioKinds : ℕ → ObserverKind :=
  fun id => if id = 0 then ObserverKind.A else ObserverKind.B

/-- The unit-test scenario after the three `AttachObserver` calls. -/
def scenarioAttached : System :=
  AttachObserver (AttachObserver (AttachObserver (mkSystem scenarioKinds) 0) 1) 2

/-- The unit-test scenario after `SetValueA(1)`. -/
def scenarioStep1 : System := SetValueA scenarioAttached 1

/-- The unit-test scenario after `SetValueB(2)`. -/
def scenarioStep2 : System := SetValueB scenarioStep1 2

/-- The unit-test scenario after `DetachObserver(observerBB)` and
`SetValueB(3)`. -/
def scenarioStep3 : System := SetValueB (DetachObserver scenarioStep2 2) 3

end ReferenceSemantics

namespace ValueSemantics

/-- The stored callable of a value-semantics `Observer`:
`std::function<void(const SubjectT&, TagT)>`.  Every concrete callable in
the repository (the closure wired by `SubjectObserverA`, the `observerB`
lambda, and the free function `OnNotification`) reads the subject only
through `GetValueA`/`GetValueB` and writes exactly one external integer
cell (the captured `m_Value`, the captured `lambdaValueB`, or the global
`freeFuncValueB`), so the callable is modelled as a function from the
subject's two field values, the tag, and the old content of its cell to
the new content of its cell. -/
def OnNotificationFunc : Type := Int → Int → SubjectSystemTag → Int → Int

/-- The whole value-semantics system state: the concrete `SubjectSystem`
(fields `m_ValueA`, `m_ValueB` plus the inherited registered-observer set
`m_Observers`, as the set's ordered key list) together with each observer
wrapper's stored callable (`m_OnNotification id`, fixed at construction)
and the integer cell that callable writes (`caches id`). -/
structure System where
  m_ValueA : Int
  m_ValueB : Int
  m_Observers : List ℕ
  m_OnNotification : ℕ → OnNotificationFunc
  caches : ℕ → Int

/-- `SubjectSystem::GetValueA`. -/
def GetValueA (s : System) : Int := s.m_ValueA

/-- `SubjectSystem::GetValueB`. -/
def GetValueB (s : System) : Int := s.m_ValueB

/-- The closure wired by `SubjectObserverA`'s constructor: captures its
`m_Value` cell; on tag `ValueA` stores `subject.GetValueA()` into it. -/
def SubjectObserverA_func : OnNotificationFunc :=
  fun valueA _ tag value =>
    if tag = SubjectSystemTag.ValueA then valueA else value

/-- The lambda bound to `observerB` in the unit test: captures the
`lambdaValueB` cell; on tag `ValueB` stores `subject.GetValueB()`. -/
def observerB_lambda : OnNotificationFunc :=
  fun _ valueB tag value =>
    if tag = SubjectSystemTag.ValueB then valueB else value

/-- The free function `OnNotification` used as `observerBB`'s payload:
writes the global `freeFuncValueB` cell on tag `ValueB`. -/
def OnNotificationFree : OnNotificationFunc :=
  fun _ valueB tag value =>
    if tag = SubjectSystemTag.ValueB then valueB else value

/-- One iteration of the `SendNotification` loop:
`observer->OnNotification(*this, tag)` forwards to the stored callable
`m_OnNotification`, which updates only that observer's cell. -/
def notifyStep (st : System) (observer : ℕ) (tag : SubjectSystemTag) : System :=
  { st with caches := fun x =>
      if x = observer then
        st.m_OnNotification observer st.m_ValueA st.m_ValueB tag (st.caches observer)
      else st.caches x }

/-- The `SendNotification` loop body over an explicit iteration list. -/
def notifyList (st : System) (l : List ℕ) (tag : SubjectSystemTag) : System :=
  l.foldl (fun s o => notifyStep s o tag) st

/-- The sequence of observers on which `SendNotification` invokes
`OnNotification`, in iteration order of `for(Observer* observer :
m_Observers)`. -/
def SendNotificationCalls (st : System) : List ℕ :=
  st.m_Observers

/-- `Subject::SendNotification(tag)`: invokes `OnNotification` on every
registered observer, in set-iteration order. -/
def SendNotification (st : System) (tag : SubjectSystemTag) : System :=
  notifyList st (SendNotificationCalls st) tag

/-- `Subject::AttachObserver`: `m_Observers.insert(observer)`. -/
def AttachObserver (s : System) (observer : ℕ) : System :=
  { s with m_Observers := setInsert observer s.m_Observers }

/-- `Subject::DetachObserver`: `m_Observers.erase(observer)`. -/
def DetachObserver (s : System) (observer : ℕ) : System :=
  { s with m_Observers := setErase s.m_Observers observer }

/-- `SubjectSystem::SetValueA`: stores the value, then broadcasts
`SubjectSystemTag::ValueA`. -/
def SetValueA (s : System) (value : Int) : System :=
  SendNotification { s with m_ValueA := value } SubjectSystemTag.ValueA

/-- `SubjectSystem::SetValueB`: stores the value, then broadcasts
`SubjectSystemTag::ValueB`. -/
def SetValueB (s : System) (value : Int) : System :=
  SendNotification { s with m_ValueB := value } SubjectSystemTag.ValueB

/-- Run one client call. -/
def runOp (s : System) : Op → System
  | Op.attachObserver observer => AttachObserver s observer
  | Op.detachObserver observer => DetachObserver s observer
  | Op.setValueA value => SetValueA s value
  | Op.setValueB value => SetValueB s value

/-- Run a sequence of client calls, first to last. -/
def run (ops : List Op) (s : System) : System :=
  ops.foldl runOp s

/-- A freshly constructed `SubjectSystem` and freshly constructed observer
wrappers: member initializers give `m_ValueA{0}`, `m_ValueB{0}`, an empty
`m_Observers` set, and every observed cell (`m_Value{0}`,
`lambdaValueB{0}`, `freeFuncValueB` reset to `0`) holds `0`. -/
def mkSystem (funcs : ℕ → OnNotificationFunc) : System :=
  { m_ValueA := 0, m_ValueB := 0, m_Observers := [], m_OnNotification := funcs,
    caches := fun _ => 0 }

/-- The observers of the unit-test scenario: `observerA` is identity `0`
(the `SubjectObserverA` adapter), `observerB` identity `1` (the lambda
writing `lambdaValueB`), `observerBB` identity `2` (the free function
writing `freeFuncValueB`). -/
def scenarioFuncs : ℕ → OnNotificationFunc :=
  fun id =>
    if id = 0 then SubjectObserverA_func
    else if id = 1 then observerB_lambda
    else OnNotificationFree

/-- The unit-test scenario after the three `AttachObserver` calls. -/
def scenarioAttached : System :=
  AttachObserver (AttachObserver (AttachObserver (mkSystem scenarioFuncs) 0) 1) 2

/-- The unit-test scenario after `SetValueA(1)`. -/
def scenarioStep1 : System := SetValueA scenarioAttached 1

/-- The unit-test scenario after `SetValueB(2)`. -/
def scenarioStep2 : System := SetValueB scenarioStep1 2

/-- The unit-test scenario after `DetachObserver(observerBB)` and
`SetValueB(3)`. -/
def scenarioStep3 : System := SetValueB (DetachObserver scenarioStep2 2) 3

end ValueSemantics

/-- The value-semantics callable whose behaviour corresponds to a given
reference-semantics observer class: `SubjectObserverA`'s closure for kind
`A`, a `ValueB`-filtering callable (the `observerB` lambda; the free
function has the identical body) for kind `B`. -/
def funcOfKind : ReferenceSemantics.ObserverKind → ValueSemantics.OnNotificationFunc
  | ReferenceSemantics.ObserverKind.A => ValueSemantics.SubjectObserverA_func
  | ReferenceSemantics.ObserverKind.B => ValueSemantics.observerB_lambda

/-- The value-semantics system with behaviourally corresponding observers
to a given reference-semantics system: same fields, same registered set,
same cached cells, and each observer's stored callable is the one
corresponding to its reference-semantics dynamic type. -/
def toValueSemantics (s : ReferenceSemantics.System) : ValueSemantics.System :=
  { m_ValueA := s.m_ValueA
    m_ValueB := s.m_ValueB
    m_Observers := s.m_Observers
    m_OnNotification := fun id => funcOfKind (s.kinds id)
    caches := s.caches }

/-- One registration call: `AttachObserver` or `DetachObserver`. -/
inductive RegOp
  | attach (observer : ℕ)
  | detach (observer : ℕ)
deriving DecidableEq

/-- The API call a registration call is. -/
def RegOp.toOp : RegOp → Op
  | RegOp.attach o => Op.attachObserver o
  | RegOp.detach o => Op.detachObserver o

/-- The effect of one registration call on the registered key list. -/
def regApply (l : List ℕ) : RegOp → List ℕ
  | RegOp.attach o => setInsert o l
  | RegOp.detach o => setErase l o

/-- The effect of a registration sequence on the registered key list. -/
def regFold (ops : List RegOp) (l : List ℕ) : List ℕ :=
  ops.foldl regApply l

/-- The specification's notion of the net state of a handle after a
registration sequence: the last attach/detach naming it wins; with no
such call the initial state stands. -/
def netAttached (id : ℕ) (ops : List RegOp) (init : Bool) : Bool :=
  ops.foldl
    (fun b op =>
      match op with
      | RegOp.attach j => if j = id then true else b
      | RegOp.detach j => if j = id then false else b)
    init

/-- The externally observable events of one setter call: the field write,
the single `SendNotification` call the setter then makes, and that
broadcast's `OnNotification` invocations in iteration order. -/
inductive Event
  | fieldWrite (tag : SubjectSystemTag) (value : Int)
  | broadcastStart (tag : SubjectSystemTag)
  | invoke (observer : ℕ) (tag : SubjectSystemTag)
deriving DecidableEq

/-- Recognizes the start of a `SendNotification` broadcast. -/
def Event.isBroadcastStart : Event → Bool
  | Event.broadcastStart _ => true
  | _ => false

/-- The event trace of `SetValueA`/`SetValueB` (identical shape in both
variants): first the store into the field, then exactly one
`SendNotification(tag)`, whose loop invokes `OnNotification` on the
registered observers in iteration order `calls`. -/
def setterEvents (tag : SubjectSystemTag) (value : Int) (calls : List ℕ) : List Event :=
  Event.fieldWrite tag value :: Event.broadcastStart tag ::
    calls.map (fun o => Event.invoke o tag)

/-- The state effect of one trace event on the reference-semantics
system, used to check the trace against the code. -/
def applyEventRS (s : ReferenceSemantics.System) : Event → ReferenceSemantics.System
  | Event.fieldWrite SubjectSystemTag.ValueA v => { s with m_ValueA := v }
  | Event.fieldWrite SubjectSystemTag.ValueB v => { s with m_ValueB := v }
  | Event.broadcastStart _ => s
  | Event.invoke o tag => ReferenceSemantics.notifyStep s o tag

/-- The state effect of one trace event on the value-semantics system,
used to check the trace against the code. -/
def applyEventVS (s : ValueSemantics.System) : Event → ValueSemantics.System
  | Event.fieldWrite SubjectSystemTag.ValueA v => { s with m_ValueA := v }
  | Event.fieldWrite SubjectSystemTag.ValueB v => { s with m_ValueB := v }
  | Event.broadcastStart _ => s
  | Event.invoke o tag => ValueSemantics.notifyStep s o tag

/-! ### Properties of the ordered-set primitives -/

theorem setInsert_mem {y x : ℕ} : ∀ {l : List ℕ}, y ∈ setInsert x l ↔ y = x ∨ y ∈ l := by
  intro l
  induction l with
  | nil => simp [setInsert]
  | cons z zs ih =>
    unfold setInsert
    split_ifs with h1 h2
    · simp [List.mem_cons]
    · subst h2
      simp only [List.mem_cons]
      tauto
    · simp only [List.mem_cons, ih]
      tauto

theorem setInsert_idem (x : ℕ) : ∀ (l : List ℕ), setInsert x (setInsert x l) = setInsert x l := by
  intro l
  induction l with
  | nil => simp [setInsert]
  | cons z zs ih =>
    unfold setInsert
    split_ifs with h1 h2
    · simp [setInsert, h1]
    · subst h2
      simp [setInsert, h1]
    · simp [setInsert, h1, h2, ih]

theorem setInsert_sorted {x : ℕ} : ∀ {l : List ℕ}, l.Sorted (· < ·) →
    (setInsert x l).Sorted (· < ·) := by
  intro l
  induction l with
  | nil => intro _; simp [setInsert]
  | cons z zs ih =>
    intro hs
    rw [List.sorted_cons] at hs
    obtain ⟨hz, hzs⟩ := hs
    unfold setInsert
    split_ifs with h1 h2
    · rw [List.sorted_cons]
      refine ⟨?_, ?_⟩
      · intro b hb
        rcases List.mem_cons.mp hb with hb | hb
        · exact hb ▸ h1
        · exact lt_trans h1 (hz b hb)
      · rw [List.sorted_cons]
        exact ⟨hz, hzs⟩
    · rw [List.sorted_cons]
      exact ⟨hz, hzs⟩
    · have hzx : z < x := by omega
      rw [List.sorted_cons]
      refine ⟨?_, ih hzs⟩
      intro b hb
      rcases setInsert_mem.mp hb with hb | hb
      · exact hb ▸ hzx
      · exact hz b hb

theorem setErase_sorted {x : ℕ} {l : List ℕ} (h : l.Sorted (· < ·)) :
    (setErase l x).Sorted (· < ·) :=
  List.Pairwise.sublist (List.erase_sublist x l) h

theorem sorted_nodup {l : List ℕ} (h : l.Sorted (· < ·)) : l.Nodup :=
  h.imp (fun hab => Nat.ne_of_lt hab)

/-! ### Reference semantics: behaviour of the notification loop -/

namespace ReferenceSemantics

theorem rs_dispatch_match (tag : SubjectSystemTag) (st : System) (c : Int) :
    dispatchOnNotification (kindOfTag tag) st tag c = fieldOfTag st tag := by
  cases tag <;> rfl

theorem rs_dispatch_mismatch {k : ObserverKind} {tag : SubjectSystemTag}
    (st : System) (c : Int) (h : k ≠ kindOfTag tag) :
    dispatchOnNotification k st tag c = c := by
  cases k <;> cases tag <;>
    first
      | rfl
      | exact absurd rfl h

theorem rs_notifyList_cons (st : System) (o : ℕ) (rest : List ℕ) (tag : SubjectSystemTag) :
    notifyList st (o :: rest) tag = notifyList (notifyStep st o tag) rest tag := rfl

theorem rs_notifyList_m_ValueA (tag : SubjectSystemTag) :
    ∀ (l : List ℕ) (st : System), (notifyList st l tag).m_ValueA = st.m_ValueA := by
  intro l
  induction l with
  | nil => intro st; rfl
  | cons o rest ih => intro st; exact ih (notifyStep st o tag)

theorem rs_notifyList_m_ValueB (tag : SubjectSystemTag) :
    ∀ (l : List ℕ) (st : System), (notifyList st l tag).m_ValueB = st.m_ValueB := by
  intro l
  induction l with
  | nil => intro st; rfl
  | cons o rest ih => intro st; exact ih (notifyStep st o tag)

theorem rs_notifyList_m_Observers (tag : SubjectSystemTag) :
    ∀ (l : List ℕ) (st : System), (notifyList st l tag).m_Observers = st.m_Observers := by
  intro l
  induction l with
  | nil => intro st; rfl
  | cons o rest ih => intro st; exact ih (notifyStep st o tag)

theorem rs_notifyList_kinds (tag : SubjectSystemTag) :
    ∀ (l : List ℕ) (st : System), (notifyList st l tag).kinds = st.kinds := by
  intro l
  induction l with
  | nil => intro st; rfl
  | cons o rest ih => intro st; exact ih (notifyStep st o tag)

theorem rs_fieldOfTag_step (st : System) (o : ℕ) (tag tag2 : SubjectSystemTag) :
    fieldOfTag (notifyStep st o tag) tag2 = fieldOfTag st tag2 := by
  cases tag2 <;> rfl

theorem rs_notifyList_caches_not_mem {id : ℕ} (tag : SubjectSystemTag) :
    ∀ (l : List ℕ) (st : System), id ∉ l →
      (notifyList st l tag).caches id = st.caches id := by
  intro l
  induction l with
  | nil => intro st _; rfl
  | cons o rest ih =>
    intro st h
    have ho : id ≠ o := fun hc => h (hc ▸ List.mem_cons_self o rest)
    have hrest : id ∉ rest := fun hc => h (List.mem_cons_of_mem o hc)
    rw [rs_notifyList_cons, ih _ hrest]
    simp [notifyStep, ho]

theorem rs_notifyList_caches_match {id : ℕ} (tag : SubjectSystemTag) :
    ∀ (l : List ℕ) (st : System), st.kinds id = kindOfTag tag → id ∈ l →
      (notifyList st l tag).caches id = fieldOfTag st tag := by
  intro l
  induction l with
  | nil => intro st _ h; exact absurd h (List.not_mem_nil id)
  | cons o rest ih =>
    intro st hk hmem
    rw [rs_notifyList_cons]
    by_cases hr : id ∈ rest
    · have hk1 : (notifyStep st o tag).kinds id = kindOfTag tag := hk
      rw [ih _ hk1 hr, rs_fieldOfTag_step]
    · have ho : id = o := by
        rcases List.mem_cons.mp hmem with h | h
        · exact h
        · exact absurd h hr
      subst ho
      rw [rs_notifyList_caches_not_mem tag rest _ hr]
      have hstep : (notifyStep st id tag).caches id
          = dispatchOnNotification (st.kinds id) st tag (st.caches id) := by
        simp [notifyStep]
      rw [hstep, hk, rs_dispatch_match]

theorem rs_notifyList_caches_mismatch {id : ℕ} (tag : SubjectSystemTag) :
    ∀ (l : List ℕ) (st : System), st.kinds id ≠ kindOfTag tag →
      (notifyList st l tag).caches id = st.caches id := by
  intro l
  induction l with
  | nil => intro st _; rfl
  | cons o rest ih =>
    intro st hk
    rw [rs_notifyList_cons]
    have hk1 : (notifyStep st o tag).kinds id ≠ kindOfTag tag := hk
    rw [ih _ hk1]
    by_cases ho : id = o
    · subst ho
      have hstep : (notifyStep st id tag).caches id
          = dispatchOnNotification (st.kinds id) st tag (st.caches id) := by
        simp [notifyStep]
      rw [hstep, rs_dispatch_mismatch _ _ hk]
    · simp [notifyStep, ho]

theorem rs_SetValueA_GetValueA (s : System) (v : Int) : GetValueA (SetValueA s v) = v := by
  simp [SetValueA, SendNotification, GetValueA, rs_notifyList_m_ValueA]

theorem rs_SetValueA_GetValueB (s : System) (v : Int) : GetValueB (SetValueA s v) = GetValueB s := by
  simp [SetValueA, SendNotification, GetValueB, rs_notifyList_m_ValueB]

theorem rs_SetValueB_GetValueB (s : System) (v : Int) : GetValueB (SetValueB s v) = v := by
  simp [SetValueB, SendNotification, GetValueB, rs_notifyList_m_ValueB]

theorem rs_SetValueB_GetValueA (s : System) (v : Int) : GetValueA (SetValueB s v) = GetValueA s := by
  simp [SetValueB, SendNotification, GetValueA, rs_notifyList_m_ValueA]

theorem rs_SetValueA_m_Observers (s : System) (v : Int) :
    (SetValueA s v).m_Observers = s.m_Observers := by
  simp [SetValueA, SendNotification, rs_notifyList_m_Observers]

theorem rs_SetValueB_m_Observers (s : System) (v : Int) :
    (SetValueB s v).m_Observers = s.m_Observers := by
  simp [SetValueB, SendNotification, rs_notifyList_m_Observers]

theorem rs_SetValueA_kinds (s : System) (v : Int) : (SetValueA s v).kinds = s.kinds := by
  simp [SetValueA, SendNotification, rs_notifyList_kinds]

theorem rs_SetValueB_kinds (s : System) (v : Int) : (SetValueB s v).kinds = s.kinds := by
  simp [SetValueB, SendNotification, rs_notifyList_kinds]

theorem rs_SetValueA_caches_A {s : System} {id : ℕ} (v : Int)
    (hmem : id ∈ s.m_Observers) (hk : s.kinds id = ObserverKind.A) :
    (SetValueA s v).caches id = v := by
  have h := @rs_notifyList_caches_match id SubjectSystemTag.ValueA
    s.m_Observers { s with m_ValueA := v } hk hmem
  exact h

theorem rs_SetValueB_caches_B {s : System} {id : ℕ} (v : Int)
    (hmem : id ∈ s.m_Observers) (hk : s.kinds id = ObserverKind.B) :
    (SetValueB s v).caches id = v := by
  have h := @rs_notifyList_caches_match id SubjectSystemTag.ValueB
    s.m_Observers { s with m_ValueB := v } hk hmem
  exact h

theorem rs_SetValueA_caches_B {s : System} {id : ℕ} (v : Int)
    (hk : s.kinds id = ObserverKind.B) :
    (SetValueA s v).caches id = s.caches id := by
  have hne : ({ s with m_ValueA := v } : System).kinds id ≠ kindOfTag SubjectSystemTag.ValueA := by
    simp [kindOfTag]
    intro hc
    rw [hk] at hc
    exact ObserverKind.noConfusion hc
  exact rs_notifyList_caches_mismatch SubjectSystemTag.ValueA s.m_Observers _ hne

theorem rs_SetValueB_caches_A {s : System} {id : ℕ} (v : Int)
    (hk : s.kinds id = ObserverKind.A) :
    (SetValueB s v).caches id = s.caches id := by
  have hne : ({ s with m_ValueB := v } : System).kinds id ≠ kindOfTag SubjectSystemTag.ValueB := by
    simp [kindOfTag]
    intro hc
    rw [hk] at hc
    exact ObserverKind.noConfusion hc
  exact rs_notifyList_caches_mismatch SubjectSystemTag.ValueB s.m_Observers _ hne

theorem rs_SetValueA_caches_not_mem {s : System} {id : ℕ} (v : Int)
    (h : id ∉ s.m_Observers) : (SetValueA s v).caches id = s.caches id :=
  rs_notifyList_caches_not_mem SubjectSystemTag.ValueA s.m_Observers _ h

theorem rs_SetValueB_caches_not_mem {s : System} {id : ℕ} (v : Int)
    (h : id ∉ s.m_Observers) : (SetValueB s v).caches id = s.caches id :=
  rs_notifyList_caches_not_mem SubjectSystemTag.ValueB s.m_Observers _ h

/-- While an observer stays unregistered and no operation re-attaches it,
neither its cached value nor its non-membership changes across any
sequence of API calls. -/
theorem rs_run_not_mem {id : ℕ} :
    ∀ (ops : List Op) (s : System), id ∉ s.m_Observers →
      Op.attachObserver id ∉ ops →
      (run ops s).caches id = s.caches id ∧ id ∉ (run ops s).m_Observers := by
  intro ops
  induction ops with
  | nil => intro s h _; exact ⟨rfl, h⟩
  | cons op rest ih =>
    intro s h hno
    have hop : op ≠ Op.attachObserver id := fun hc => hno (hc ▸ List.mem_cons_self op rest)
    have hrest : Op.attachObserver id ∉ rest := fun hc => hno (List.mem_cons_of_mem op hc)
    have hrun : run (op :: rest) s = run rest (runOp s op) := rfl
    have hstep : (runOp s op).caches id = s.caches id ∧ id ∉ (runOp s op).m_Observers := by
      cases op with
      | attachObserver j =>
        have hj : j ≠ id := fun hc => hop (by rw [hc])
        refine ⟨rfl, ?_⟩
        intro hc
        rcases setInsert_mem.mp hc with hc | hc
        · exact hj hc.symm
        · exact h hc
      | detachObserver j =>
        exact ⟨rfl, fun hc => h (List.mem_of_mem_erase hc)⟩
      | setValueA v =>
        refine ⟨rs_SetValueA_caches_not_mem v h, ?_⟩
        show id ∉ (SetValueA s v).m_Observers
        rw [rs_SetValueA_m_Observers]
        exact h
      | setValueB v =>
        refine ⟨rs_SetValueB_caches_not_mem v h, ?_⟩
        show id ∉ (SetValueB s v).m_Observers
        rw [rs_SetValueB_m_Observers]
        exact h
    rw [hrun]
    have hres := ih (runOp s op) hstep.2 hrest
    exact ⟨hres.1.trans hstep.1, hres.2⟩

end ReferenceSemantics

/-! ### Value semantics: behaviour of the notification loop -/

namespace ValueSemantics

theorem vs_notifyList_cons (st : System) (o : ℕ) (rest : List ℕ) (tag : SubjectSystemTag) :
    notifyList st (o :: rest) tag = notifyList (notifyStep st o tag) rest tag := rfl

theorem vs_notifyList_m_ValueA (tag : SubjectSystemTag) :
    ∀ (l : List ℕ) (st : System), (notifyList st l tag).m_ValueA = st.m_ValueA := by
  intro l
  induction l with
  | nil => intro st; rfl
  | cons o rest ih => intro st; exact ih (notifyStep st o tag)

theorem vs_notifyList_m_ValueB (tag : SubjectSystemTag) :
    ∀ (l : List ℕ) (st : System), (notifyList st l tag).m_ValueB = st.m_ValueB := by
  intro l
  induction l with
  | nil => intro st; rfl
  | cons o rest ih => intro st; exact ih (notifyStep st o tag)

theorem vs_notifyList_m_Observers (tag : SubjectSystemTag) :
    ∀ (l : List ℕ) (st : System), (notifyList st l tag).m_Observers = st.m_Observers := by
  intro l
  induction l with
  | nil => intro st; rfl
  | cons o rest ih => intro st; exact ih (notifyStep st o tag)

theorem vs_notifyList_funcs (tag : SubjectSystemTag) :
    ∀ (l : List ℕ) (st : System), (notifyList st l tag).m_OnNotification = st.m_OnNotification := by
  intro l
  induction l with
  | nil => intro st; rfl
  | cons o rest ih => intro st; exact ih (notifyStep st o tag)

theorem vs_notifyList_caches_not_mem {id : ℕ} (tag : SubjectSystemTag) :
    ∀ (l : List ℕ) (st : System), id ∉ l →
      (notifyList st l tag).caches id = st.caches id := by
  intro l
  induction l with
  | nil => intro st _; rfl
  | cons o rest ih =>
    intro st h
    have ho : id ≠ o := fun hc => h (hc ▸ List.mem_cons_self o rest)
    have hrest : id ∉ rest := fun hc => h (List.mem_cons_of_mem o hc)
    rw [vs_notifyList_cons, ih _ hrest]
    simp [notifyStep, ho]

/-- When the callable stored for `id` writes the fixed value `w` into its
cell whatever the cell held, the broadcast leaves `w` there whenever `id`
is iterated at least once. -/
theorem vs_notifyList_caches_write {id : ℕ} {w : Int} (tag : SubjectSystemTag) :
    ∀ (l : List ℕ) (st : System),
      (∀ c : Int, st.m_OnNotification id st.m_ValueA st.m_ValueB tag c = w) →
      id ∈ l → (notifyList st l tag).caches id = w := by
  intro l
  induction l with
  | nil => intro st _ h; exact absurd h (List.not_mem_nil id)
  | cons o rest ih =>
    intro st hf hmem
    rw [vs_notifyList_cons]
    by_cases hr : id ∈ rest
    · exact ih _ hf hr
    · have ho : id = o := by
        rcases List.mem_cons.mp hmem with h | h
        · exact h
        · exact absurd h hr
      subst ho
      rw [vs_notifyList_caches_not_mem tag rest _ hr]
      have hstep : (notifyStep st id tag).caches id
          = st.m_OnNotification id st.m_ValueA st.m_ValueB tag (st.caches id) := by
        simp [notifyStep]
      rw [hstep, hf]

/-- When the callable stored for `id` leaves its cell alone for this tag,
the broadcast leaves the cell unchanged, registered or not. -/
theorem vs_notifyList_caches_fix {id : ℕ} (tag : SubjectSystemTag) :
    ∀ (l : List ℕ) (st : System),
      (∀ c : Int, st.m_OnNotification id st.m_ValueA st.m_ValueB tag c = c) →
      (notifyList st l tag).caches id = st.caches id := by
  intro l
  induction l with
  | nil => intro st _; rfl
  | cons o rest ih =>
    intro st hf
    rw [vs_notifyList_cons, ih (notifyStep st o tag) hf]
    by_cases ho : id = o
    · subst ho
      have hstep : (notifyStep st id tag).caches id
          = st.m_OnNotification id st.m_ValueA st.m_ValueB tag (st.caches id) := by
        simp [notifyStep]
      rw [hstep, hf]
    · simp [notifyStep, ho]

theorem vs_SetValueA_GetValueA (s : System) (v : Int) : GetValueA (SetValueA s v) = v := by
  simp [SetValueA, SendNotification, GetValueA, vs_notifyList_m_ValueA]

theorem vs_SetValueA_GetValueB (s : System) (v : Int) : GetValueB (SetValueA s v) = GetValueB s := by
  simp [SetValueA, SendNotification, GetValueB, vs_notifyList_m_ValueB]

theorem vs_SetValueB_GetValueB (s : System) (v : Int) : GetValueB (SetValueB s v) = v := by
  simp [SetValueB, SendNotification, GetValueB, vs_notifyList_m_ValueB]

theorem vs_SetValueB_GetValueA (s : System) (v : Int) : GetValueA (SetValueB s v) = GetValueA s := by
  simp [SetValueB, SendNotification, GetValueA, vs_notifyList_m_ValueA]

theorem vs_SetValueA_m_Observers (s : System) (v : Int) :
    (SetValueA s v).m_Observers = s.m_Observers := by
  simp [SetValueA, SendNotification, vs_notifyList_m_Observers]

theorem vs_SetValueB_m_Observers (s : System) (v : Int) :
    (SetValueB s v).m_Observers = s.m_Observers := by
  simp [SetValueB, SendNotification, vs_notifyList_m_Observers]

/-- The `observerB` lambda and the free function `OnNotification` have the
same behaviour on their cell: both filter on `ValueB` and store
`subject.GetValueB()`. -/
theorem vs_free_eq_lambda : OnNotificationFree = observerB_lambda := rfl

theorem vs_SetValueA_caches_Afunc {s : System} {id : ℕ} (v : Int)
    (hmem : id ∈ s.m_Observers) (hf : s.m_OnNotification id = SubjectObserverA_func) :
    (SetValueA s v).caches id = v := by
  refine vs_notifyList_caches_write SubjectSystemTag.ValueA
    s.m_Observers { s with m_ValueA := v } ?_ hmem
  intro c
  show s.m_OnNotification id v s.m_ValueB SubjectSystemTag.ValueA c = v
  rw [hf]
  rfl

theorem vs_SetValueB_caches_Bfunc {s : System} {id : ℕ} (v : Int)
    (hmem : id ∈ s.m_Observers) (hf : s.m_OnNotification id = observerB_lambda) :
    (SetValueB s v).caches id = v := by
  refine vs_notifyList_caches_write SubjectSystemTag.ValueB
    s.m_Observers { s with m_ValueB := v } ?_ hmem
  intro c
  show s.m_OnNotification id s.m_ValueA v SubjectSystemTag.ValueB c = v
  rw [hf]
  rfl

theorem vs_SetValueA_caches_Bfunc {s : System} {id : ℕ} (v : Int)
    (hf : s.m_OnNotification id = observerB_lambda) :
    (SetValueA s v).caches id = s.caches id := by
  refine vs_notifyList_caches_fix SubjectSystemTag.ValueA s.m_Observers { s with m_ValueA := v } ?_
  intro c
  show s.m_OnNotification id v s.m_ValueB SubjectSystemTag.ValueA c = c
  rw [hf]
  rfl

theorem vs_SetValueB_caches_Afunc {s : System} {id : ℕ} (v : Int)
    (hf : s.m_OnNotification id = SubjectObserverA_func) :
    (SetValueB s v).caches id = s.caches id := by
  refine vs_notifyList_caches_fix SubjectSystemTag.ValueB s.m_Observers { s with m_ValueB := v } ?_
  intro c
  show s.m_OnNotification id s.m_ValueA v SubjectSystemTag.ValueB c = c
  rw [hf]
  rfl

theorem vs_SetValueA_caches_not_mem {s : System} {id : ℕ} (v : Int)
    (h : id ∉ s.m_Observers) : (SetValueA s v).caches id = s.caches id :=
  vs_notifyList_caches_not_mem SubjectSystemTag.ValueA s.m_Observers _ h

theorem vs_SetValueB_caches_not_mem {s : System} {id : ℕ} (v : Int)
    (h : id ∉ s.m_Observers) : (SetValueB s v).caches id = s.caches id :=
  vs_notifyList_caches_not_mem SubjectSystemTag.ValueB s.m_Observers _ h

/-- While an observer stays unregistered and no operation re-attaches it,
neither its cell nor its non-membership changes across any sequence of
API calls. -/
theorem vs_run_not_mem {id : ℕ} :
    ∀ (ops : List Op) (s : System), id ∉ s.m_Observers →
      Op.attachObserver id ∉ ops →
      (run ops s).caches id = s.caches id ∧ id ∉ (run ops s).m_Observers := by
  intro ops
  induction ops with
  | nil => intro s h _; exact ⟨rfl, h⟩
  | cons op rest ih =>
    intro s h hno
    have hop : op ≠ Op.attachObserver id := fun hc => hno (hc ▸ List.mem_cons_self op rest)
    have hrest : Op.attachObserver id ∉ rest := fun hc => hno (List.mem_cons_of_mem op hc)
    have hrun : run (op :: rest) s = run rest (runOp s op) := rfl
    have hstep : (runOp s op).caches id = s.caches id ∧ id ∉ (runOp s op).m_Observers := by
      cases op with
      | attachObserver j =>
        have hj : j ≠ id := fun hc => hop (by rw [hc])
        refine ⟨rfl, ?_⟩
        intro hc
        rcases setInsert_mem.mp hc with hc | hc
        · exact hj hc.symm
        · exact h hc
      | detachObserver j =>
        exact ⟨rfl, fun hc => h (List.mem_of_mem_erase hc)⟩
      | setValueA v =>
        refine ⟨vs_SetValueA_caches_not_mem v h, ?_⟩
        show id ∉ (SetValueA s v).m_Observers
        rw [vs_SetValueA_m_Observers]
        exact h
      | setValueB v =>
        refine ⟨vs_SetValueB_caches_not_mem v h, ?_⟩
        show id ∉ (SetValueB s v).m_Observers
        rw [vs_SetValueB_m_Observers]
        exact h
    rw [hrun]
    have hres := ih (runOp s op) hstep.2 hrest
    exact ⟨hres.1.trans hstep.1, hres.2⟩

end ValueSemantics

/-! ### The refinement bridge between the two variants -/

theorem toVS_dispatch (k : ReferenceSemantics.ObserverKind) (st : ReferenceSemantics.System)
    (tag : SubjectSystemTag) (c : Int) :
    ReferenceSemantics.dispatchOnNotification k st tag c
      = funcOfKind k st.m_ValueA st.m_ValueB tag c := by
  cases k <;> rfl

theorem toVS_notifyStep (st : ReferenceSemantics.System) (o : ℕ) (tag : SubjectSystemTag) :
    toValueSemantics (ReferenceSemantics.notifyStep st o tag)
      = ValueSemantics.notifyStep (toValueSemantics st) o tag := by
  cases st with
  | mk a b obs kinds caches =>
    simp only [ReferenceSemantics.notifyStep, ValueSemantics.notifyStep, toValueSemantics,
      ValueSemantics.System.mk.injEq, true_and]
    funext x
    by_cases hx : x = o
    · simp only [hx, if_pos rfl]
      exact toVS_dispatch (kinds o) (ReferenceSemantics.System.mk a b obs kinds caches) tag
        (caches o)
    · simp [hx]

theorem toVS_notifyList (tag : SubjectSystemTag) :
    ∀ (l : List ℕ) (st : ReferenceSemantics.System),
      toValueSemantics (ReferenceSemantics.notifyList st l tag)
        = ValueSemantics.notifyList (toValueSemantics st) l tag := by
  intro l
  induction l with
  | nil => intro st; rfl
  | cons o rest ih =>
    intro st
    rw [ReferenceSemantics.rs_notifyList_cons, ValueSemantics.vs_notifyList_cons,
      ih (ReferenceSemantics.notifyStep st o tag), toVS_notifyStep]

theorem toVS_runOp (s : ReferenceSemantics.System) (op : Op) :
    toValueSemantics (ReferenceSemantics.runOp s op)
      = ValueSemantics.runOp (toValueSemantics s) op := by
  cases op with
  | attachObserver o => rfl
  | detachObserver o => rfl
  | setValueA v =>
    show toValueSemantics (ReferenceSemantics.SetValueA s v)
      = ValueSemantics.SetValueA (toValueSemantics s) v
    exact toVS_notifyList SubjectSystemTag.ValueA s.m_Observers { s with m_ValueA := v }
  | setValueB v =>
    show toValueSemantics (ReferenceSemantics.SetValueB s v)
      = ValueSemantics.SetValueB (toValueSemantics s) v
    exact toVS_notifyList SubjectSystemTag.ValueB s.m_Observers { s with m_ValueB := v }

theorem toVS_run :
    ∀ (ops : List Op) (s : ReferenceSemantics.System),
      toValueSemantics (ReferenceSemantics.run ops s)
        = ValueSemantics.run ops (toValueSemantics s) := by
  intro ops
  induction ops with
  | nil => intro s; rfl
  | cons op rest ih =>
    intro s
    show toValueSemantics (ReferenceSemantics.run rest (ReferenceSemantics.runOp s op))
      = ValueSemantics.run rest (ValueSemantics.runOp (toValueSemantics s) op)
    rw [ih (ReferenceSemantics.runOp s op), toVS_runOp]

/-! ### Net attach/detach state over registration sequences -/

theorem regFold_sorted :
    ∀ (ops : List RegOp) {l : List ℕ}, l.Sorted (· < ·) →
      (regFold ops l).Sorted (· < ·) := by
  intro ops
  induction ops with
  | nil => intro l h; exact h
  | cons op rest ih =>
    intro l h
    show (regFold rest (regApply l op)).Sorted (· < ·)
    refine ih ?_
    cases op with
    | attach o => exact setInsert_sorted h
    | detach o => exact setErase_sorted h

theorem regFold_mem {id : ℕ} :
    ∀ (ops : List RegOp) {l : List ℕ}, l.Sorted (· < ·) →
      (id ∈ regFold ops l ↔ netAttached id ops (decide (id ∈ l)) = true) := by
  intro ops
  induction ops with
  | nil =>
    intro l _
    simp [regFold, netAttached]
  | cons op rest ih =>
    intro l h
    cases op with
    | attach j =>
      have hl : id ∈ regFold rest (setInsert j l)
          ↔ netAttached id rest (decide (id ∈ setInsert j l)) = true :=
        ih (setInsert_sorted h)
      have hd : decide (id ∈ setInsert j l) = if j = id then true else decide (id ∈ l) := by
        by_cases hj : j = id
        · subst hj
          simp [setInsert_mem]
        · have : (id ∈ setInsert j l) ↔ (id ∈ l) := by
            rw [setInsert_mem]
            constructor
            · rintro (hc | hc)
              · exact absurd hc.symm hj
              · exact hc
            · exact fun hc => Or.inr hc
          simp [hj, this]
      show id ∈ regFold rest (setInsert j l)
        ↔ netAttached id rest (if j = id then true else decide (id ∈ l)) = true
      rw [hl, hd]
    | detach j =>
      have hl : id ∈ regFold rest (setErase l j)
          ↔ netAttached id rest (decide (id ∈ setErase l j)) = true :=
        ih (setErase_sorted h)
      have hnd : l.Nodup := sorted_nodup h
      have hd : decide (id ∈ setErase l j) = if j = id then false else decide (id ∈ l) := by
        by_cases hj : j = id
        · subst hj
          simp [setErase, hnd.mem_erase_iff]
        · have : (id ∈ setErase l j) ↔ (id ∈ l) := by
            rw [setErase, hnd.mem_erase_iff]
            constructor
            · exact fun hc => hc.2
            · exact fun hc => ⟨fun he => hj he.symm, hc⟩
          simp [hj, this]
      show id ∈ regFold rest (setErase l j)
        ↔ netAttached id rest (if j = id then false else decide (id ∈ l)) = true
      rw [hl, hd]

theorem rs_run_regOps (ops : List RegOp) :
    ∀ (s : ReferenceSemantics.System),
      (ReferenceSemantics.run (ops.map RegOp.toOp) s).m_Observers
        = regFold ops s.m_Observers := by
  induction ops with
  | nil => intro s; rfl
  | cons op rest ih =>
    intro s
    cases op with
    | attach o => exact ih (ReferenceSemantics.AttachObserver s o)
    | detach o => exact ih (ReferenceSemantics.DetachObserver s o)

theorem vs_run_regOps (ops : List RegOp) :
    ∀ (s : ValueSemantics.System),
      (ValueSemantics.run (ops.map RegOp.toOp) s).m_Observers
        = regFold ops s.m_Observers := by
  induction ops with
  | nil => intro s; rfl
  | cons op rest ih =>
    intro s
    cases op with
    | attach o => exact ih (ValueSemantics.AttachObserver s o)
    | detach o => exact ih (ValueSemantics.DetachObserver s o)

/-! ### Event traces of the setters -/

theorem setterEvents_broadcast_countP (tag : SubjectSystemTag) (value : Int) (calls : List ℕ) :
    (setterEvents tag value calls).countP Event.isBroadcastStart = 1 := by
  simp only [setterEvents, List.countP_cons]
  have hmap : (calls.map (fun o => Event.invoke o tag)).countP Event.isBroadcastStart = 0 := by
    rw [List.countP_map]
    simp [Function.comp, Event.isBroadcastStart]
  simp [hmap, Event.isBroadcastStart]

theorem setterEvents_broadcast_count (tag : SubjectSystemTag) (value : Int) (calls : List ℕ) :
    (setterEvents tag value calls).count (Event.broadcastStart tag) = 1 := by
  simp only [setterEvents, List.count_cons]
  have hmap : (calls.map (fun o => Event.invoke o tag)).count (Event.broadcastStart tag) = 0 := by
    rw [List.count_eq_zero]
    intro hc
    rcases List.mem_map.mp hc with ⟨o, _, ho⟩
    exact Event.noConfusion ho
  simp [hmap]

theorem setterEvents_write_first {tag tg2 : SubjectSystemTag} {value w : Int}
    {calls : List ℕ} {i : ℕ}
    (h : (setterEvents tag value calls)[i]? = some (Event.fieldWrite tg2 w)) : i = 0 := by
  match i with
  | 0 => rfl
  | 1 =>
    exfalso
    simp only [setterEvents, List.getElem?_cons_succ, List.getElem?_cons_zero] at h
    exact Event.noConfusion (Option.some.inj h)
  | (n + 2) =>
    exfalso
    simp only [setterEvents, List.getElem?_cons_succ, List.getElem?_map] at h
    cases hc : calls[n]? with
    | none => rw [hc] at h; exact Option.noConfusion h
    | some o =>
      rw [hc] at h
      exact Event.noConfusion (Option.some.inj h)

theorem setterEvents_broadcast_later {tag tg2 : SubjectSystemTag} {value : Int}
    {calls : List ℕ} {j : ℕ}
    (h : (setterEvents tag value calls)[j]? = some (Event.broadcastStart tg2)) : 0 < j := by
  match j with
  | 0 =>
    exfalso
    simp only [setterEvents, List.getElem?_cons_zero] at h
    exact Event.noConfusion (Option.some.inj h)
  | (n + 1) => exact Nat.succ_pos n

theorem rs_replay_invokes (tag : SubjectSystemTag) :
    ∀ (l : List ℕ) (st : ReferenceSemantics.System),
      (l.map (fun o => Event.invoke o tag)).foldl applyEventRS st
        = ReferenceSemantics.notifyList st l tag := by
  intro l
  induction l with
  | nil => intro st; rfl
  | cons o rest ih => intro st; exact ih (ReferenceSemantics.notifyStep st o tag)

theorem vs_replay_invokes (tag : SubjectSystemTag) :
    ∀ (l : List ℕ) (st : ValueSemantics.System),
      (l.map (fun o => Event.invoke o tag)).foldl applyEventVS st
        = ValueSemantics.notifyList st l tag := by
  intro l
  induction l with
  | nil => intro st; rfl
  | cons o rest ih => intro st; exact ih (ValueSemantics.notifyStep st o tag)

theorem rs_replay_SetValueA (s : ReferenceSemantics.System) (v : Int) :
    (setterEvents SubjectSystemTag.ValueA v s.m_Observers).foldl applyEventRS s
      = ReferenceSemantics.SetValueA s v :=
  rs_replay_invokes SubjectSystemTag.ValueA s.m_Observers { s with m_ValueA := v }

theorem rs_replay_SetValueB (s : ReferenceSemantics.System) (v : Int) :
    (setterEvents SubjectSystemTag.ValueB v s.m_Observers).foldl applyEventRS s
      = ReferenceSemantics.SetValueB s v :=
  rs_replay_invokes SubjectSystemTag.ValueB s.m_Observers { s with m_ValueB := v }

theorem vs_replay_SetValueA (s : ValueSemantics.System) (v : Int) :
    (setterEvents SubjectSystemTag.ValueA v s.m_Observers).foldl applyEventVS s
      = ValueSemantics.SetValueA s v :=
  vs_replay_invokes SubjectSystemTag.ValueA s.m_Observers { s with m_ValueA := v }

theorem vs_replay_SetValueB (s : ValueSemantics.System) (v : Int) :
    (setterEvents SubjectSystemTag.ValueB v s.m_Observers).foldl applyEventVS s
      = ValueSemantics.SetValueB s v :=
  vs_replay_invokes SubjectSystemTag.ValueB s.m_Observers { s with m_ValueB := v }

/-! ### The claims -/

/-- C1: In both variants, for a freshly constructed `SubjectSystem` with
observers A (caching `ValueA`), B and BB (caching `ValueB`) attached, the
sequence `SetValueA(1); SetValueB(2); DetachObserver(BB); SetValueB(3)`
yields, after each step respectively: A's cache `1` with B and BB still
`0`; then B and BB both `2` with A still `1`; then B's cache `3`, BB
still `2`, A still `1`, and the subject reads `GetValueA() == 1`,
`GetValueB() == 3`. -/
theorem observer_C1_concrete_scenario :
    (ReferenceSemantics.GetValueA ReferenceSemantics.scenarioStep1 = 1
      ∧ ReferenceSemantics.GetValueB ReferenceSemantics.scenarioStep1 = 0
      ∧ ReferenceSemantics.scenarioStep1.caches 0 = 1
      ∧ ReferenceSemantics.scenarioStep1.caches 1 = 0
      ∧ ReferenceSemantics.scenarioStep1.caches 2 = 0)
    ∧ (ReferenceSemantics.GetValueA ReferenceSemantics.scenarioStep2 = 1
      ∧ ReferenceSemantics.GetValueB ReferenceSemantics.scenarioStep2 = 2
      ∧ ReferenceSemantics.scenarioStep2.caches 0 = 1
      ∧ ReferenceSemantics.scenarioStep2.caches 1 = 2
      ∧ ReferenceSemantics.scenarioStep2.caches 2 = 2)
    ∧ (ReferenceSemantics.GetValueA ReferenceSemantics.scenarioStep3 = 1
      ∧ ReferenceSemantics.GetValueB ReferenceSemantics.scenarioStep3 = 3
      ∧ ReferenceSemantics.scenarioStep3.caches 0 = 1
      ∧ ReferenceSemantics.scenarioStep3.caches 1 = 3
      ∧ ReferenceSemantics.scenarioStep3.caches 2 = 2)
    ∧ (ValueSemantics.GetValueA ValueSemantics.scenarioStep1 = 1
      ∧ ValueSemantics.GetValueB ValueSemantics.scenarioStep1 = 0
      ∧ ValueSemantics.scenarioStep1.caches 0 = 1
      ∧ ValueSemantics.scenarioStep1.caches 1 = 0
      ∧ ValueSemantics.scenarioStep1.caches 2 = 0)
    ∧ (ValueSemantics.GetValueA ValueSemantics.scenarioStep2 = 1
      ∧ ValueSemantics.GetValueB ValueSemantics.scenarioStep2 = 2
      ∧ ValueSemantics.scenarioStep2.caches 0 = 1
      ∧ ValueSemantics.scenarioStep2.caches 1 = 2
      ∧ ValueSemantics.scenarioStep2.caches 2 = 2)
    ∧ (ValueSemantics.GetValueA ValueSemantics.scenarioStep3 = 1
      ∧ ValueSemantics.GetValueB ValueSemantics.scenarioStep3 = 3
      ∧ ValueSemantics.scenarioStep3.caches 0 = 1
      ∧ ValueSemantics.scenarioStep3.caches 1 = 3
      ∧ ValueSemantics.scenarioStep3.caches 2 = 2) := by
  decide

/-- C4: In both variants, `AttachObserver` is idempotent: attaching the
same handle twice leaves the whole system in exactly the state one attach
produces, and (being a total function on every state) it never fails or
signals an error on an already-attached handle. -/
theorem observer_C4_attach_idempotent :
    (∀ (s : ReferenceSemantics.System) (observer : ℕ),
        ReferenceSemantics.AttachObserver (ReferenceSemantics.AttachObserver s observer) observer
          = ReferenceSemantics.AttachObserver s observer)
    ∧ (∀ (s : ValueSemantics.System) (observer : ℕ),
        ValueSemantics.AttachObserver (ValueSemantics.AttachObserver s observer) observer
          = ValueSemantics.AttachObserver s observer) := by
  constructor
  · intro s o
    simp [ReferenceSemantics.AttachObserver, setInsert_idem]
  · intro s o
    simp [ValueSemantics.AttachObserver, setInsert_idem]

/-- C5: In both variants, `DetachObserver` on a handle not currently in
the registered set is a no-op: the whole system state (hence the
registered set and every other handle's membership) is exactly as before,
and no error is raised. -/
theorem observer_C5_detach_absent_noop :
    (∀ (s : ReferenceSemantics.System) (observer : ℕ), observer ∉ s.m_Observers →
        ReferenceSemantics.DetachObserver s observer = s)
    ∧ (∀ (s : ValueSemantics.System) (observer : ℕ), observer ∉ s.m_Observers →
        ValueSemantics.DetachObserver s observer = s) := by
  constructor
  · intro s o h
    simp [ReferenceSemantics.DetachObserver, setErase, List.erase_of_not_mem h]
  · intro s o h
    simp [ValueSemantics.DetachObserver, setErase, List.erase_of_not_mem h]

/-- Witness for C5 at a concrete input: detaching the never-attached
handle `7` from a fresh system changes nothing, in both variants. -/
theorem observer_C5_detach_absent_noop_witness :
    ReferenceSemantics.DetachObserver
        (ReferenceSemantics.mkSystem (fun _ => ReferenceSemantics.ObserverKind.A)) 7
      = ReferenceSemantics.mkSystem (fun _ => ReferenceSemantics.ObserverKind.A)
    ∧ ValueSemantics.DetachObserver
        (ValueSemantics.mkSystem (fun _ => ValueSemantics.SubjectObserverA_func)) 7
      = ValueSemantics.mkSystem (fun _ => ValueSemantics.SubjectObserverA_func) :=
  ⟨observer_C5_detach_absent_noop.1
      (ReferenceSemantics.mkSystem (fun _ => ReferenceSemantics.ObserverKind.A)) 7 (by decide),
   observer_C5_detach_absent_noop.2
      (ValueSemantics.mkSystem (fun _ => ValueSemantics.SubjectObserverA_func)) 7 (by decide)⟩

/-- C9: In both variants, a freshly constructed `SubjectSystem` reads
`GetValueA() == 0` and `GetValueB() == 0`, and every freshly constructed
observer's cached value is `0`, before any notification is delivered. -/
theorem observer_C9_fresh_zero :
    (∀ kinds : ℕ → ReferenceSemantics.ObserverKind,
        ReferenceSemantics.GetValueA (ReferenceSemantics.mkSystem kinds) = 0
      ∧ ReferenceSemantics.GetValueB (ReferenceSemantics.mkSystem kinds) = 0
      ∧ ∀ id, (ReferenceSemantics.mkSystem kinds).caches id = 0)
    ∧ (∀ funcs : ℕ → ValueSemantics.OnNotificationFunc,
        ValueSemantics.GetValueA (ValueSemantics.mkSystem funcs) = 0
      ∧ ValueSemantics.GetValueB (ValueSemantics.mkSystem funcs) = 0
      ∧ ∀ id, (ValueSemantics.mkSystem funcs).caches id = 0) :=
  ⟨fun _ => ⟨rfl, rfl, fun _ => rfl⟩, fun _ => ⟨rfl, rfl, fun _ => rfl⟩⟩

/-- C10: In both variants, `AttachObserver` and `DetachObserver` deliver
no notification and touch no subject field: after either call the
subject's `ValueA` and `ValueB` and every observer's cached value are
exactly as before; only the registered set may differ. -/
theorem observer_C10_attach_detach_frame :
    (∀ (s : ReferenceSemantics.System) (observer : ℕ),
        ReferenceSemantics.GetValueA (ReferenceSemantics.AttachObserver s observer)
            = ReferenceSemantics.GetValueA s
      ∧ ReferenceSemantics.GetValueB (ReferenceSemantics.AttachObserver s observer)
            = ReferenceSemantics.GetValueB s
      ∧ (ReferenceSemantics.AttachObserver s observer).caches = s.caches
      ∧ ReferenceSemantics.GetValueA (ReferenceSemantics.DetachObserver s observer)
            = ReferenceSemantics.GetValueA s
      ∧ ReferenceSemantics.GetValueB (ReferenceSemantics.DetachObserver s observer)
            = ReferenceSemantics.GetValueB s
      ∧ (ReferenceSemantics.DetachObserver s observer).caches = s.caches)
    ∧ (∀ (s : ValueSemantics.System) (observer : ℕ),
        ValueSemantics.GetValueA (ValueSemantics.AttachObserver s observer)
            = ValueSemantics.GetValueA s
      ∧ ValueSemantics.GetValueB (ValueSemantics.AttachObserver s observer)
            = ValueSemantics.GetValueB s
      ∧ (ValueSemantics.AttachObserver s observer).caches = s.caches
      ∧ ValueSemantics.GetValueA (ValueSemantics.DetachObserver s observer)
            = ValueSemantics.GetValueA s
      ∧ ValueSemantics.GetValueB (ValueSemantics.DetachObserver s observer)
            = ValueSemantics.GetValueB s
      ∧ (ValueSemantics.DetachObserver s observer).caches = s.caches) :=
  ⟨fun _ _ => ⟨rfl, rfl, rfl, rfl, rfl, rfl⟩, fun _ _ => ⟨rfl, rfl, rfl, rfl, rfl, rfl⟩⟩

/-- C2: the value-semantics variant with behaviourally corresponding
observers produces, for every sequence of attach, detach, `SetValueA` and
`SetValueB` calls, exactly the observable results of the
reference-semantics variant: same `GetValueA`/`GetValueB` and same cached
value in every observer.  Since the sequence is universally quantified,
this holds in particular after every prefix, i.e. after every step. -/
theorem observer_C2_variant_equivalence (ops : List Op) (s : ReferenceSemantics.System) :
    ValueSemantics.GetValueA (ValueSemantics.run ops (toValueSemantics s))
        = ReferenceSemantics.GetValueA (ReferenceSemantics.run ops s)
    ∧ ValueSemantics.GetValueB (ValueSemantics.run ops (toValueSemantics s))
        = ReferenceSemantics.GetValueB (ReferenceSemantics.run ops s)
    ∧ ∀ id, (ValueSemantics.run ops (toValueSemantics s)).caches id
        = (ReferenceSemantics.run ops s).caches id := by
  rw [← toVS_run]
  exact ⟨rfl, rfl, fun _ => rfl⟩

/-- C3: in both variants, after any sequence of
`AttachObserver`/`DetachObserver` calls, a subsequent broadcast invokes
`OnNotification` exactly once on every handle whose net state is attached
(last attach/detach naming it wins) and never on any other handle. -/
theorem observer_C3_net_attached_broadcast :
    (∀ (ops : List RegOp) (id : ℕ) (s : ReferenceSemantics.System),
        s.m_Observers.Sorted (· < ·) →
        (ReferenceSemantics.SendNotificationCalls
            (ReferenceSemantics.run (ops.map RegOp.toOp) s)).count id
          = if netAttached id ops (decide (id ∈ s.m_Observers)) then 1 else 0)
    ∧ (∀ (ops : List RegOp) (id : ℕ) (s : ValueSemantics.System),
        s.m_Observers.Sorted (· < ·) →
        (ValueSemantics.SendNotificationCalls
            (ValueSemantics.run (ops.map RegOp.toOp) s)).count id
          = if netAttached id ops (decide (id ∈ s.m_Observers)) then 1 else 0) := by
  constructor
  · intro ops id s hs
    show ((ReferenceSemantics.run (ops.map RegOp.toOp) s).m_Observers).count id = _
    rw [rs_run_regOps ops s]
    have hsorted := regFold_sorted ops hs
    have hmem := @regFold_mem id ops s.m_Observers hs
    by_cases h : netAttached id ops (decide (id ∈ s.m_Observers)) = true
    · rw [List.count_eq_one_of_mem (sorted_nodup hsorted) (hmem.mpr h), if_pos h]
    · rw [List.count_eq_zero_of_not_mem (fun hc => h (hmem.mp hc)), if_neg h]
  · intro ops id s hs
    show ((ValueSemantics.run (ops.map RegOp.toOp) s).m_Observers).count id = _
    rw [vs_run_regOps ops s]
    have hsorted := regFold_sorted ops hs
    have hmem := @regFold_mem id ops s.m_Observers hs
    by_cases h : netAttached id ops (decide (id ∈ s.m_Observers)) = true
    · rw [List.count_eq_one_of_mem (sorted_nodup hsorted) (hmem.mpr h), if_pos h]
    · rw [List.count_eq_zero_of_not_mem (fun hc => h (hmem.mp hc)), if_neg h]

/-- Witness for C3 at a concrete input: after attach 1, attach 2,
detach 2 on a fresh system, the next broadcast calls handle 1 exactly
once (reference variant) and handle 2 not at all (value variant). -/
theorem observer_C3_net_attached_broadcast_witness :
    (ReferenceSemantics.SendNotificationCalls
        (ReferenceSemantics.run
          ([RegOp.attach 1, RegOp.attach 2, RegOp.detach 2].map RegOp.toOp)
          (ReferenceSemantics.mkSystem (fun _ => ReferenceSemantics.ObserverKind.A)))).count 1
      = 1
    ∧ (ValueSemantics.SendNotificationCalls
        (ValueSemantics.run
          ([RegOp.attach 1, RegOp.attach 2, RegOp.detach 2].map RegOp.toOp)
          (ValueSemantics.mkSystem (fun _ => ValueSemantics.SubjectObserverA_func)))).count 2
      = 0 :=
  ⟨(observer_C3_net_attached_broadcast.1 [RegOp.attach 1, RegOp.attach 2, RegOp.detach 2] 1
      (ReferenceSemantics.mkSystem (fun _ => ReferenceSemantics.ObserverKind.A))
      (by decide)).trans (by decide),
   (observer_C3_net_attached_broadcast.2 [RegOp.attach 1, RegOp.attach 2, RegOp.detach 2] 2
      (ValueSemantics.mkSystem (fun _ => ValueSemantics.SubjectObserverA_func))
      (by decide)).trans (by decide)⟩

/-- C7: in both variants, a `ValueA` broadcast (from `SetValueA`) leaves
the cached state of every `ValueB`-filtering observer unchanged, and a
`ValueB` broadcast leaves every `ValueA`-filtering observer unchanged. -/
theorem observer_C7_broadcast_frame :
    (∀ (s : ReferenceSemantics.System) (v : Int) (id : ℕ),
        (s.kinds id = ReferenceSemantics.ObserverKind.B →
          (ReferenceSemantics.SetValueA s v).caches id = s.caches id)
      ∧ (s.kinds id = ReferenceSemantics.ObserverKind.A →
          (ReferenceSemantics.SetValueB s v).caches id = s.caches id))
    ∧ (∀ (s : ValueSemantics.System) (v : Int) (id : ℕ),
        ((s.m_OnNotification id = ValueSemantics.observerB_lambda
            ∨ s.m_OnNotification id = ValueSemantics.OnNotificationFree) →
          (ValueSemantics.SetValueA s v).caches id = s.caches id)
      ∧ (s.m_OnNotification id = ValueSemantics.SubjectObserverA_func →
          (ValueSemantics.SetValueB s v).caches id = s.caches id)) := by
  constructor
  · intro s v id
    exact ⟨fun hk => ReferenceSemantics.rs_SetValueA_caches_B v hk,
           fun hk => ReferenceSemantics.rs_SetValueB_caches_A v hk⟩
  · intro s v id
    refine ⟨fun hf => ?_, fun hf => ValueSemantics.vs_SetValueB_caches_Afunc v hf⟩
    rcases hf with hf | hf
    · exact ValueSemantics.vs_SetValueA_caches_Bfunc v hf
    · rw [ValueSemantics.vs_free_eq_lambda] at hf
      exact ValueSemantics.vs_SetValueA_caches_Bfunc v hf

/-- Witness for C7 at a concrete input: `SetValueA(5)` leaves a
`ValueB`-filtering observer's cache untouched in both variants. -/
theorem observer_C7_broadcast_frame_witness :
    (ReferenceSemantics.SetValueA
        (ReferenceSemantics.mkSystem (fun _ => ReferenceSemantics.ObserverKind.B)) 5).caches 0
      = (ReferenceSemantics.mkSystem (fun _ => ReferenceSemantics.ObserverKind.B)).caches 0
    ∧ (ValueSemantics.SetValueA
        (ValueSemantics.mkSystem (fun _ => ValueSemantics.observerB_lambda)) 5).caches 0
      = (ValueSemantics.mkSystem (fun _ => ValueSemantics.observerB_lambda)).caches 0 :=
  ⟨(observer_C7_broadcast_frame.1
      (ReferenceSemantics.mkSystem (fun _ => ReferenceSemantics.ObserverKind.B)) 5 0).1 rfl,
   (observer_C7_broadcast_frame.2
      (ValueSemantics.mkSystem (fun _ => ValueSemantics.observerB_lambda)) 5 0).1 (Or.inl rfl)⟩

/-- C8: in both variants, once an observer is out of the registered set,
any sequence of subsequent calls that never re-attaches it — including
broadcasts of the tag it filtered on — leaves its cached value unchanged:
it permanently retains the last value it observed while attached. -/
theorem observer_C8_detached_cache_retained :
    (∀ (s : ReferenceSemantics.System) (id : ℕ) (ops : List Op),
        id ∉ s.m_Observers → Op.attachObserver id ∉ ops →
        (ReferenceSemantics.run ops s).caches id = s.caches id)
    ∧ (∀ (s : ValueSemantics.System) (id : ℕ) (ops : List Op),
        id ∉ s.m_Observers → Op.attachObserver id ∉ ops →
        (ValueSemantics.run ops s).caches id = s.caches id) := by
  constructor
  · intro s id ops h hno
    exact (ReferenceSemantics.rs_run_not_mem ops s h hno).1
  · intro s id ops h hno
    exact (ValueSemantics.vs_run_not_mem ops s h hno).1

/-- Witness for C8 at a concrete input: on a fresh system with handle `2`
unattached, running `SetValueB(9)` leaves handle `2`'s cache exactly as
before, in both variants. -/
theorem observer_C8_detached_cache_retained_witness :
    (ReferenceSemantics.run [Op.setValueB 9]
        (ReferenceSemantics.mkSystem (fun _ => ReferenceSemantics.ObserverKind.B))).caches 2
      = (ReferenceSemantics.mkSystem (fun _ => ReferenceSemantics.ObserverKind.B)).caches 2
    ∧ (ValueSemantics.run [Op.setValueB 9]
        (ValueSemantics.mkSystem (fun _ => ValueSemantics.observerB_lambda))).caches 2
      = (ValueSemantics.mkSystem (fun _ => ValueSemantics.observerB_lambda)).caches 2 :=
  ⟨observer_C8_detached_cache_retained.1
      (ReferenceSemantics.mkSystem (fun _ => ReferenceSemantics.ObserverKind.B)) 2
      [Op.setValueB 9] (by decide) (by decide),
   observer_C8_detached_cache_retained.2
      (ValueSemantics.mkSystem (fun _ => ValueSemantics.observerB_lambda)) 2
      [Op.setValueB 9] (by decide) (by decide)⟩

/-- C6: in both variants, `SetValueA(v)` stores `v` into the `ValueA`
field and then performs exactly one broadcast, tagged `ValueA`, after the
write and never before (likewise `SetValueB` with `ValueB`); replaying
the event trace reproduces the setter exactly, and every attached
observer that filters on the written tag reads the new value during the
broadcast. -/
theorem observer_C6_setter_write_then_single_broadcast :
    (∀ (s : ReferenceSemantics.System) (v : Int),
        ReferenceSemantics.GetValueA (ReferenceSemantics.SetValueA s v) = v
      ∧ (setterEvents SubjectSystemTag.ValueA v s.m_Observers).countP Event.isBroadcastStart = 1
      ∧ (setterEvents SubjectSystemTag.ValueA v s.m_Observers).count
            (Event.broadcastStart SubjectSystemTag.ValueA) = 1
      ∧ (∀ (i j : ℕ) (w : Int),
            (setterEvents SubjectSystemTag.ValueA v s.m_Observers)[i]?
                = some (Event.fieldWrite SubjectSystemTag.ValueA w) →
            (setterEvents SubjectSystemTag.ValueA v s.m_Observers)[j]?
                = some (Event.broadcastStart SubjectSystemTag.ValueA) →
            i < j)
      ∧ (setterEvents SubjectSystemTag.ValueA v s.m_Observers).foldl applyEventRS s
            = ReferenceSemantics.SetValueA s v
      ∧ (∀ id, id ∈ s.m_Observers → s.kinds id = ReferenceSemantics.ObserverKind.A →
            (ReferenceSemantics.SetValueA s v).caches id = v))
    ∧ (∀ (s : ReferenceSemantics.System) (v : Int),
        ReferenceSemantics.GetValueB (ReferenceSemantics.SetValueB s v) = v
      ∧ (setterEvents SubjectSystemTag.ValueB v s.m_Observers).countP Event.isBroadcastStart = 1
      ∧ (setterEvents SubjectSystemTag.ValueB v s.m_Observers).count
            (Event.broadcastStart SubjectSystemTag.ValueB) = 1
      ∧ (∀ (i j : ℕ) (w : Int),
            (setterEvents SubjectSystemTag.ValueB v s.m_Observers)[i]?
                = some (Event.fieldWrite SubjectSystemTag.ValueB w) →
            (setterEvents SubjectSystemTag.ValueB v s.m_Observers)[j]?
                = some (Event.broadcastStart SubjectSystemTag.ValueB) →
            i < j)
      ∧ (setterEvents SubjectSystemTag.ValueB v s.m_Observers).foldl applyEventRS s
            = ReferenceSemantics.SetValueB s v
      ∧ (∀ id, id ∈ s.m_Observers → s.kinds id = ReferenceSemantics.ObserverKind.B →
            (ReferenceSemantics.SetValueB s v).caches id = v))
    ∧ (∀ (s : ValueSemantics.System) (v : Int),
        ValueSemantics.GetValueA (ValueSemantics.SetValueA s v) = v
      ∧ (setterEvents SubjectSystemTag.ValueA v s.m_Observers).countP Event.isBroadcastStart = 1
      ∧ (setterEvents SubjectSystemTag.ValueA v s.m_Observers).count
            (Event.broadcastStart SubjectSystemTag.ValueA) = 1
      ∧ (∀ (i j : ℕ) (w : Int),
            (setterEvents SubjectSystemTag.ValueA v s.m_Observers)[i]?
                = some (Event.fieldWrite SubjectSystemTag.ValueA w) →
            (setterEvents SubjectSystemTag.ValueA v s.m_Observers)[j]?
                = some (Event.broadcastStart SubjectSystemTag.ValueA) →
            i < j)
      ∧ (setterEvents SubjectSystemTag.ValueA v s.m_Observers).foldl applyEventVS s
            = ValueSemantics.SetValueA s v
      ∧ (∀ id, id ∈ s.m_Observers →
            s.m_OnNotification id = ValueSemantics.SubjectObserverA_func →
            (ValueSemantics.SetValueA s v).caches id = v))
    ∧ (∀ (s : ValueSemantics.System) (v : Int),
        ValueSemantics.GetValueB (ValueSemantics.SetValueB s v) = v
      ∧ (setterEvents SubjectSystemTag.ValueB v s.m_Observers).countP Event.isBroadcastStart = 1
      ∧ (setterEvents SubjectSystemTag.ValueB v s.m_Observers).count
            (Event.broadcastStart SubjectSystemTag.ValueB) = 1
      ∧ (∀ (i j : ℕ) (w : Int),
            (setterEvents SubjectSystemTag.ValueB v s.m_Observers)[i]?
                = some (Event.fieldWrite SubjectSystemTag.ValueB w) →
            (setterEvents SubjectSystemTag.ValueB v s.m_Observers)[j]?
                = some (Event.broadcastStart SubjectSystemTag.ValueB) →
            i < j)
      ∧ (setterEvents SubjectSystemTag.ValueB v s.m_Observers).foldl applyEventVS s
            = ValueSemantics.SetValueB s v
      ∧ (∀ id, id ∈ s.m_Observers →
            (s.m_OnNotification id = ValueSemantics.observerB_lambda
              ∨ s.m_OnNotification id = ValueSemantics.OnNotificationFree) →
            (ValueSemantics.SetValueB s v).caches id = v)) := by
  refine ⟨fun s v => ?_, fun s v => ?_, fun s v => ?_, fun s v => ?_⟩
  · refine ⟨ReferenceSemantics.rs_SetValueA_GetValueA s v,
      setterEvents_broadcast_countP _ _ _, setterEvents_broadcast_count _ _ _,
      ?_, rs_replay_SetValueA s v, ?_⟩
    · intro i j w hi hj
      have hi0 := setterEvents_write_first hi
      have hj0 := setterEvents_broadcast_later hj
      omega
    · intro id hmem hk
      exact ReferenceSemantics.rs_SetValueA_caches_A v hmem hk
  · refine ⟨ReferenceSemantics.rs_SetValueB_GetValueB s v,
      setterEvents_broadcast_countP _ _ _, setterEvents_broadcast_count _ _ _,
      ?_, rs_replay_SetValueB s v, ?_⟩
    · intro i j w hi hj
      have hi0 := setterEvents_write_first hi
      have hj0 := setterEvents_broadcast_later hj
      omega
    · intro id hmem hk
      exact ReferenceSemantics.rs_SetValueB_caches_B v hmem hk
  · refine ⟨ValueSemantics.vs_SetValueA_GetValueA s v,
      setterEvents_broadcast_countP _ _ _, setterEvents_broadcast_count _ _ _,
      ?_, vs_replay_SetValueA s v, ?_⟩
    · intro i j w hi hj
      have hi0 := setterEvents_write_first hi
      have hj0 := setterEvents_broadcast_later hj
      omega
    · intro id hmem hf
      exact ValueSemantics.vs_SetValueA_caches_Afunc v hmem hf
  · refine ⟨ValueSemantics.vs_SetValueB_GetValueB s v,
      setterEvents_broadcast_countP _ _ _, setterEvents_broadcast_count _ _ _,
      ?_, vs_replay_SetValueB s v, ?_⟩
    · intro i j w hi hj
      have hi0 := setterEvents_write_first hi
      have hj0 := setterEvents_broadcast_later hj
      omega
    · intro id hmem hf
      rcases hf with hf | hf
      · exact ValueSemantics.vs_SetValueB_caches_Bfunc v hmem hf
      · rw [ValueSemantics.vs_free_eq_lambda] at hf
        exact ValueSemantics.vs_SetValueB_caches_Bfunc v hmem hf

/-- Witness for C6 at concrete inputs: with one attached observer, the
write lands before the broadcast at indices 0 and 1, an attached
`ValueA`-filtering observer reads `5` from `SetValueA(5)` (reference
variant), and an attached `ValueB`-filtering observer reads `7` from
`SetValueB(7)` (value variant). -/
theorem observer_C6_setter_write_then_single_broadcast_witness :
    (0 : ℕ) < 1
    ∧ (ReferenceSemantics.SetValueA
        (ReferenceSemantics.AttachObserver
          (ReferenceSemantics.mkSystem (fun _ => ReferenceSemantics.ObserverKind.A)) 0) 5).caches 0
      = 5
    ∧ (ValueSemantics.SetValueB
        (ValueSemantics.AttachObserver
          (ValueSemantics.mkSystem (fun _ => ValueSemantics.observerB_lambda)) 0) 7).caches 0
      = 7 :=
  ⟨(observer_C6_setter_write_then_single_broadcast.1
      (ReferenceSemantics.AttachObserver
        (ReferenceSemantics.mkSystem (fun _ => ReferenceSemantics.ObserverKind.A)) 0)
      5).2.2.2.1 0 1 5 (by decide) (by decide),
   (observer_C6_setter_write_then_single_broadcast.1
      (ReferenceSemantics.AttachObserver
        (ReferenceSemantics.mkSystem (fun _ => ReferenceSemantics.ObserverKind.A)) 0)
      5).2.2.2.2.2 0 (by decide) rfl,
   (observer_C6_setter_write_then_single_broadcast.2.2.2
      (ValueSemantics.AttachObserver
        (ValueSemantics.mkSystem (fun _ => ValueSemantics.observerB_lambda)) 0)
      7).2.2.2.2.2 0 (by decide) (Or.inl rfl)⟩

end ObserverPattern
